import Mathlib

set_option maxRecDepth 4000

/-!
Verification development for the benchmark-comparison harness
(`benchmarks/compare_benchmarks.py` of the Lynx Vector DB repository).

Python floats are modelled as rationals (`ℚ`); Python exceptions as
`Except PyErr`; the console report as the list of strings passed to
`print`, in order.  Regular-expression scanning is modelled by explicit
leftmost-match scanners for the two concrete patterns the source uses
(for both patterns maximal-munch scanning coincides with Python regex
semantics, because the character following a `\d+` or `[\d.]+` group can
never itself belong to the character class).
-/

namespace LynxBench

/-- Python exceptions that the modelled code can raise. -/
inductive PyErr where
  | zeroDiv
  | valueError
deriving DecidableEq

deriving instance DecidableEq for Except

/-- Python division: raises `ZeroDivisionError` when the divisor is zero. -/
def pydiv (a b : ℚ) : Except PyErr ℚ :=
  if b = 0 then .error .zeroDiv else .ok (a / b)

/-! ## Regex scanning primitives -/

/-- Strip an expected literal from the front of the input,
returning the remainder on success. -/
def stripLit : List Char → List Char → Option (List Char)
  | [], cs => some cs
  | _ :: _, [] => none
  | a :: as, c :: cs => if a = c then stripLit as cs else none

/-- Greedy one-or-more character-class match (`\d+` / `[\d.]+`):
the maximal nonempty run of class characters plus the remainder. -/
def takeWhile1 (p : Char → Bool) (cs : List Char) : Option (List Char × List Char) :=
  let t := cs.takeWhile p
  if t.isEmpty then none else some (t, cs.drop t.length)

/-- Character class `[\d.]`. -/
def isDigitDot (c : Char) : Bool := c.isDigit || c = '.'

/-- Attempt to match `Inserted \d+ vectors in ([\d.]+) seconds` at the
start of the input, returning capture group 1. -/
def matchInsertAt (cs : List Char) : Option (List Char) :=
  match stripLit "Inserted ".toList cs with
  | none => none
  | some r1 =>
    match takeWhile1 Char.isDigit r1 with
    | none => none
    | some (_, r2) =>
      match stripLit " vectors in ".toList r2 with
      | none => none
      | some r3 =>
        match takeWhile1 isDigitDot r3 with
        | none => none
        | some (g, r4) =>
          match stripLit " seconds".toList r4 with
          | none => none
          | some _ => some g

/-- `re.search` for the insertion pattern: first (leftmost) match. -/
def searchInsert : List Char → Option (List Char)
  | [] => none
  | c :: cs =>
    match matchInsertAt (c :: cs) with
    | some g => some g
    | none => searchInsert cs

/-- Attempt to match `Query \d+: ([\d.]+)s` at the start of the input,
returning capture group 1 and the remainder after the whole match. -/
def matchQueryAt (cs : List Char) : Option (List Char × List Char) :=
  match stripLit "Query ".toList cs with
  | none => none
  | some r1 =>
    match takeWhile1 Char.isDigit r1 with
    | none => none
    | some (_, r2) =>
      match stripLit ": ".toList r2 with
      | none => none
      | some r3 =>
        match takeWhile1 isDigitDot r3 with
        | none => none
        | some (g, r4) =>
          match stripLit "s".toList r4 with
          | none => none
          | some r5 => some (g, r5)

/-- Fuelled scanner for `re.finditer`: collect matches left to right,
resuming after the end of each match (non-overlapping).  Fuel bounds the
number of scanning steps; `searchQueries` supplies enough fuel. -/
def searchQueriesFuel : Nat → List Char → List (List Char)
  | 0, _ => []
  | _ + 1, [] => []
  | n + 1, c :: cs =>
    match matchQueryAt (c :: cs) with
    | some (g, rest) => g :: searchQueriesFuel n rest
    | none => searchQueriesFuel n cs

/-- `re.finditer` for the query pattern: all matches, in textual order. -/
def searchQueries (cs : List Char) : List (List Char) :=
  searchQueriesFuel cs.length cs

/-- Numeric value of a digit string. -/
def digitsToNat (cs : List Char) : ℕ :=
  cs.foldl (fun n c => 10 * n + (c.toNat - 48)) 0

/-- Python `float()` on a string of digits and dots: accepts `123`,
`1.23`, `.5`, `5.`; raises `ValueError` on the empty string, a lone dot,
or more than one dot. -/
def pyFloat (cs : List Char) : Except PyErr ℚ :=
  let ip := cs.takeWhile Char.isDigit
  let rest := cs.drop ip.length
  match rest with
  | [] => if ip.isEmpty then .error .valueError else .ok (digitsToNat ip)
  | '.' :: fr =>
    if fr.all Char.isDigit ∧ (ip ≠ [] ∨ fr ≠ []) then
      .ok ((digitsToNat ip : ℚ) + (digitsToNat fr : ℚ) / (10 : ℚ) ^ fr.length)
    else .error .valueError
  | _ => .error .valueError

/-! ## Metric extraction (`parse_chromadb_output` / `parse_lynx_output`) -/

/-- The metrics dictionary built by the two parsing functions. -/
structure Metrics where
  insert_time : Option ℚ
  query_times : List ℚ
deriving DecidableEq

/-- Lines 90–92: `re.search` for the insertion pattern; on a match,
`float` of group 1, else the field stays `None`. -/
def extractInsert (cs : List Char) : Except PyErr (Option ℚ) :=
  match searchInsert cs with
  | none => .ok none
  | some g => do
    let v ← pyFloat g
    .ok (some v)

/-- Lines 95–97: `re.finditer` for the query pattern; `float` of each
group 1, appended in match order. -/
def extractQueries (cs : List Char) : Except PyErr (List ℚ) :=
  (searchQueries cs).mapM pyFloat

/-- `parse_chromadb_output` (lines 82–99). -/
def parse_chromadb_output (output : String) : Except PyErr Metrics := do
  let i ← extractInsert output.toList
  let q ← extractQueries output.toList
  .ok ⟨i, q⟩

/-- `parse_lynx_output` (lines 101–118): textually identical body. -/
def parse_lynx_output (output : String) : Except PyErr Metrics := do
  let i ← extractInsert output.toList
  let q ← extractQueries output.toList
  .ok ⟨i, q⟩

/-! ## Number formatting used by the report f-strings -/

/-- Python `:.2f` formatting, with rationals standing in for doubles
(rounding to the nearest hundredth). -/
def fmt2 (q : ℚ) : String :=
  let n : ℤ := round (q * 100)
  let m := n.natAbs
  (if n < 0 then "-" else "") ++ toString (m / 100) ++ "." ++
    (if m % 100 < 10 then "0" else "") ++ toString (m % 100)

/-- Right-align in a field of width `w` (Python `:>w` / `:w.2f`). -/
def padLeft (w : Nat) (s : String) : String :=
  if s.length < w then String.mk (List.replicate (w - s.length) ' ') ++ s else s

/-- Left-align in a field of width `w` (Python `:<w`). -/
def padRight (w : Nat) (s : String) : String :=
  if s.length < w then s ++ String.mk (List.replicate (w - s.length) ' ') else s

/-- `"=" * 60`. -/
def eq60 : String := String.mk (List.replicate 60 '=')

/-- `"-" * 60`. -/
def dash60 : String := String.mk (List.replicate 60 '-')

/-! ## `compare_metrics` (lines 120–181)

Each `print` call contributes one string to the output list; an
uncaught exception is an `Except.error` (the lines printed before the
exception are not needed by any property and are dropped on the error
path). The function is split into the three report sections exactly as
the source is; the first component of a section's result is the local
`speedup` variable when the section's guard ran, `none` when the guard
skipped the block. -/

/-- Insertion-performance section, lines 130–146.  The guard on
line 133 is Python truthiness of the two `insert_time` fields: both
non-`None` and nonzero. -/
def insertSection (ct lt : Option ℚ) : Except PyErr (Option ℚ × List String) :=
  let hdr := ["\n📊 Insertion Performance (10,000 vectors, 512 dims)", dash60]
  match ct, lt with
  | some c, some l =>
    if c = 0 ∨ l = 0 then .ok (none, hdr)
    else do
      let speedup ← pydiv c l
      let l1 := "ChromaDB:  " ++ padLeft 7 (fmt2 c) ++ "s"
      let l2 := "Lynx:      " ++ padLeft 7 (fmt2 l) ++ "s"
      let verdict ←
        if speedup > 1 then pure ("\n✅ Lynx is " ++ fmt2 speedup ++ "x FASTER")
        else if speedup < 1 then
          (pydiv 1 speedup).map (fun r => "\n⚠️  ChromaDB is " ++ fmt2 r ++ "x faster")
        else pure "\n⚖️  Similar performance"
      .ok (some speedup, hdr ++ [l1, l2, verdict])
  | _, _ => .ok (none, hdr)

/-- Query-performance (mean) section, lines 148–164.  The guard on
line 151 is Python truthiness of the two lists: both nonempty.  The
averages and their quotient are computed before anything is printed. -/
def meanSection (cq lq : List ℚ) : Except PyErr (Option ℚ × List String) :=
  let hdr := ["\n📊 Query Performance (HNSW, k=5)", dash60]
  if cq = [] ∨ lq = [] then .ok (none, hdr)
  else do
    let cavg ← pydiv cq.sum (cq.length : ℚ)
    let lavg ← pydiv lq.sum (lq.length : ℚ)
    let qs ← pydiv cavg lavg
    let l1 := "ChromaDB avg:  " ++ padLeft 7 (fmt2 (cavg * 1000)) ++ "ms"
    let l2 := "Lynx avg:      " ++ padLeft 7 (fmt2 (lavg * 1000)) ++ "ms"
    let verdict ←
      if qs > 1 then pure ("\n✅ Lynx queries are " ++ fmt2 qs ++ "x FASTER")
      else if qs < 1 then
        (pydiv 1 qs).map (fun r => "\n⚠️  ChromaDB queries are " ++ fmt2 r ++ "x faster")
      else pure "\n⚖️  Similar performance"
    .ok (some qs, hdr ++ [l1, l2, verdict])

/-- One row of the per-query table, line 179:
`f"Query {i+1:<3}  {ct:>8.2f} ms  {lt:>8.2f} ms  {sstr:>9}"`
(`i` here is already the printed 1-based index). -/
def rowString (i : ℕ) (cms lms : ℚ) (sstr : String) : String :=
  "Query " ++ padRight 3 (toString i) ++ "  " ++ padLeft 8 (fmt2 cms) ++ " ms  " ++
    padLeft 8 (fmt2 lms) ++ " ms  " ++ padLeft 9 sstr

/-- Loop body of lines 173–179 over the index-paired query times
(`for i in range(min_len)` with positional indexing is the zip of the
two lists).  Each element carries the loop's `speedup` value and the
printed row. -/
def perQueryRows : ℕ → List (ℚ × ℚ) → Except PyErr (List (ℚ × String))
  | _, [] => .ok []
  | i, (c, l) :: rest => do
    let s ← pydiv c l
    let sstr ←
      if s > 1 then pure (fmt2 s ++ "x")
      else (pydiv 1 s).map (fun r => "1/" ++ fmt2 r ++ "x")
    let rs ← perQueryRows (i + 1) rest
    .ok ((s, rowString i (c * 1000) (l * 1000) sstr) :: rs)

/-- Header lines 167–170 of the per-query table. -/
def pqHeader : List String :=
  ["\n📊 Individual Query Times (ms)", dash60,
   padRight 10 "Query" ++ " " ++ padRight 12 "ChromaDB" ++ " " ++
     padRight 12 "Lynx" ++ " " ++ padRight 10 "Speedup",
   dash60]

/-- Per-query section, lines 166–179. -/
def perQuerySection (cq lq : List ℚ) : Except PyErr (List String) := do
  let rows ← perQueryRows 1 (cq.zip lq)
  .ok (pqHeader ++ rows.map Prod.snd)

/-- `compare_metrics` (lines 120–181).  `none` stands for a benchmark
runner that returned `None`; the guard on line 126 (`not a or not b`)
prints the error line and returns early. -/
def compare_metrics (cm lm : Option Metrics) : Except PyErr (List String) :=
  let banner := ["\n" ++ eq60, "BENCHMARK COMPARISON RESULTS", eq60]
  match cm, lm with
  | some c, some l => do
    let ins ← insertSection c.insert_time l.insert_time
    let mean ← meanSection c.query_times l.query_times
    let pq ← perQuerySection c.query_times l.query_times
    .ok (banner ++ ins.2 ++ mean.2 ++ pq ++ ["\n" ++ eq60])
  | _, _ => .ok (banner ++ ["Error: Could not collect metrics from one or both benchmarks"])

/-- `main` (lines 183–206) and the process exit status: the script ends
normally (exit 0) unless `compare_metrics` raises, in which case Python
exits 1 on the uncaught exception.  The two arguments are the results
of the two benchmark runners, `none` when a runner returned `None`. -/
def mainExit (cm lm : Option Metrics) : ℕ :=
  match compare_metrics cm lm with
  | .ok _ => 0
  | .error _ => 1

/-! ## Helper predicates used in the statements -/

/-- `needle` occurs as a contiguous subsequence of `haystack`. -/
def containsSeq (needle : List Char) : List Char → Bool
  | [] => (stripLit needle []).isSome
  | c :: cs => (stripLit needle (c :: cs)).isSome || containsSeq needle cs

/-- Substring test on strings. -/
def containsStr (needle s : String) : Bool :=
  containsSeq needle.toList s.toList

/-- Shape of one backend query line, `Query <idx>: <val>s<rest>`, used
to quantify over the printed query index in the statements. -/
def queryLine (idx val rest : List Char) : List Char :=
  "Query ".toList ++ (idx ++ (':' :: ' ' :: (val ++ ('s' :: rest))))

/-! ## Helper lemmas about the report sections -/

theorem exceptBind_ok {α β : Type} (a : α) (f : α → Except PyErr β) :
    (do let x ← Except.ok a; f x) = f a := rfl

theorem exceptMap_ok {α β : Type} (a : α) (f : α → β) :
    Except.map f (Except.ok a : Except PyErr α) = .ok (f a) := rfl

theorem exceptPure_eq {α : Type} (a : α) : (pure a : Except PyErr α) = .ok a := rfl

theorem insertSection_absent (ct lt : Option ℚ)
    (h : ct = none ∨ lt = none ∨ ct = some 0 ∨ lt = some 0) :
    insertSection ct lt =
      .ok (none, ["\n📊 Insertion Performance (10,000 vectors, 512 dims)", dash60]) := by
  rcases h with rfl | rfl | rfl | rfl
  · cases lt <;> rfl
  · cases ct <;> rfl
  · cases lt with
    | none => rfl
    | some l => simp [insertSection]
  · cases ct with
    | none => rfl
    | some c => simp [insertSection]

theorem insertSection_nonzero (c l : ℚ) (hc : c ≠ 0) (hl : l ≠ 0) :
    ∃ lines, insertSection (some c) (some l) = .ok (some (c / l), lines) := by
  have hb : ¬(c = 0 ∨ l = 0) := by simp [hc, hl]
  simp only [insertSection, pydiv, if_neg hb, if_neg hl, exceptBind_ok]
  split
  · exact ⟨_, rfl⟩
  · split
    · simp only [if_neg (div_ne_zero hc hl), exceptMap_ok, exceptBind_ok]
      exact ⟨_, rfl⟩
    · exact ⟨_, rfl⟩

theorem meanSection_empty (cq lq : List ℚ) (h : cq = [] ∨ lq = []) :
    meanSection cq lq = .ok (none, ["\n📊 Query Performance (HNSW, k=5)", dash60]) := by
  rcases h with rfl | rfl
  · simp [meanSection]
  · simp [meanSection]

theorem meanSection_ok (cq lq : List ℚ) (hc : cq ≠ []) (hl : lq ≠ [])
    (hca : cq.sum / (cq.length : ℚ) ≠ 0) (hla : lq.sum / (lq.length : ℚ) ≠ 0) :
    ∃ lines,
      meanSection cq lq =
        .ok (some ((cq.sum / (cq.length : ℚ)) / (lq.sum / (lq.length : ℚ))), lines) := by
  have hcl : (cq.length : ℚ) ≠ 0 := Nat.cast_ne_zero.mpr (by simpa using hc)
  have hll : (lq.length : ℚ) ≠ 0 := Nat.cast_ne_zero.mpr (by simpa using hl)
  have hb : ¬(cq = [] ∨ lq = []) := by simp [hc, hl]
  simp only [meanSection, pydiv, if_neg hb, if_neg hcl, if_neg hll, if_neg hla,
    exceptBind_ok]
  split
  · exact ⟨_, rfl⟩
  · split
    · simp only [if_neg (div_ne_zero hca hla), exceptMap_ok, exceptBind_ok]
      exact ⟨_, rfl⟩
    · exact ⟨_, rfl⟩

theorem zip_take_min {α β : Type} (xs : List α) (ys : List β) :
    (xs.take (min xs.length ys.length)).zip (ys.take (min xs.length ys.length)) =
      xs.zip ys := by
  induction xs generalizing ys with
  | nil => simp
  | cons x xs ih =>
    cases ys with
    | nil => simp
    | cons y ys => simp [Nat.succ_min_succ, ih]

theorem perQueryRows_ok_of_nonzero (ps : List (ℚ × ℚ)) :
    ∀ i : ℕ, (∀ p ∈ ps, p.1 ≠ 0 ∧ p.2 ≠ 0) →
      ∃ rows, perQueryRows i ps = .ok rows ∧
        rows.map Prod.fst = ps.map (fun p => p.1 / p.2) ∧
        rows.length = ps.length := by
  induction ps with
  | nil => exact fun i _ => ⟨[], rfl, rfl, rfl⟩
  | cons p t ih =>
    intro i h
    obtain ⟨c, l⟩ := p
    obtain ⟨hc, hl⟩ := h (c, l) (List.mem_cons_self _ _)
    obtain ⟨rows, h1, h2, h3⟩ := ih (i + 1) (fun q hq => h q (List.mem_cons_of_mem _ hq))
    have hs : c / l ≠ 0 := div_ne_zero hc hl
    refine ⟨(c / l,
      rowString i (c * 1000) (l * 1000)
        (if c / l > 1 then fmt2 (c / l) ++ "x" else "1/" ++ fmt2 (1 / (c / l)) ++ "x")) :: rows,
      ?_, by simp [h2], by simp [h3]⟩
    simp only [perQueryRows, pydiv, if_neg hl, exceptBind_ok]
    split
    · simp only [exceptPure_eq, exceptBind_ok, h1, if_pos]
    · simp only [if_neg hs, exceptMap_ok, exceptBind_ok, h1]

/-! ## Scanning lemmas for the insertion pattern -/

theorem stripLit_cons_head {a b : Char} {as bs r : List Char}
    (h : stripLit (a :: as) (b :: bs) = some r) : a = b := by
  by_contra hne
  simp [stripLit, hne] at h

theorem stripLit_split (l : List Char) :
    ∀ u s r : List Char, stripLit l (u ++ s) = some r →
      (∃ r1, stripLit l u = some r1 ∧ r = r1 ++ s) ∨
      (u.length < l.length ∧ stripLit (l.drop u.length) s = some r) := by
  induction l with
  | nil =>
    intro u s r h
    simp only [stripLit] at h
    exact Or.inl ⟨u, rfl, by injection h with h; exact h.symm⟩
  | cons a as ih =>
    intro u s r h
    cases u with
    | nil =>
      exact Or.inr ⟨Nat.succ_pos _, by simpa using h⟩
    | cons b u2 =>
      rw [List.cons_append] at h
      have hab : a = b := stripLit_cons_head h
      rw [show stripLit (a :: as) (b :: (u2 ++ s)) = stripLit as (u2 ++ s) by
        simp [stripLit, hab]] at h
      rcases ih u2 s r h with ⟨r1, h1, h2⟩ | ⟨h1, h2⟩
      · exact Or.inl ⟨r1, by simp [stripLit, hab, h1], h2⟩
      · exact Or.inr ⟨by simpa using Nat.succ_lt_succ h1, by simpa using h2⟩

theorem searchInsert_cons_none {c : Char} {cs : List Char}
    (h : matchInsertAt (c :: cs) = none) :
    searchInsert (c :: cs) = searchInsert cs := by
  simp [searchInsert, h]

theorem matchInsertAt_stripLit {cs g : List Char}
    (h : matchInsertAt cs = some g) :
    ∃ r, stripLit "Inserted ".toList cs = some r := by
  unfold matchInsertAt at h
  cases hs : stripLit "Inserted ".toList cs with
  | none => rw [hs] at h; exact absurd h (by simp)
  | some r => exact ⟨r, rfl⟩

theorem matchInsertAt_front (post : List Char) :
    matchInsertAt ("Inserted 10000 vectors in 1.23 seconds".toList ++ post) =
      some "1.23".toList := rfl

/-- No match of the insertion pattern can start inside a text that does
not contain the literal `"Inserted "`, even when the text is followed
by further output that itself starts with that sentence: a match
spanning the junction would need the sentence to continue a partial
`"Inserted "` literal, but the sentence starts with `I`, which is not a
continuation character. -/
theorem searchInsert_pre_append :
    ∀ pre post : List Char, containsSeq "Inserted ".toList pre = false →
      searchInsert (pre ++ "Inserted 10000 vectors in 1.23 seconds".toList ++ post) =
        some "1.23".toList := by
  intro pre
  induction pre with
  | nil => intro post _; exact rfl
  | cons c pre2 ih =>
    intro post h
    rw [containsSeq, Bool.or_eq_false_iff] at h
    obtain ⟨h1, h2⟩ := h
    rw [List.append_assoc, List.cons_append]
    have hm : matchInsertAt (c ::
        (pre2 ++ ("Inserted 10000 vectors in 1.23 seconds".toList ++ post))) = none := by
      cases hmm : matchInsertAt (c ::
          (pre2 ++ ("Inserted 10000 vectors in 1.23 seconds".toList ++ post))) with
      | none => rfl
      | some g =>
        exfalso
        obtain ⟨r, hr⟩ := matchInsertAt_stripLit hmm
        rcases stripLit_split "Inserted ".toList (c :: pre2)
            ("Inserted 10000 vectors in 1.23 seconds".toList ++ post) r hr with
          ⟨r1, hs1, _⟩ | ⟨hlt, hs2⟩
        · rw [hs1] at h1; exact absurd h1 (by simp)
        · have hk1 : 1 ≤ (c :: pre2).length := Nat.succ_le_succ (Nat.zero_le _)
          have hk9 : (c :: pre2).length < 9 := by simpa using hlt
          have hhd : ∀ k, 1 ≤ k → k < 9 →
              ("Inserted ".toList.drop k).head? ≠ some 'I' := by decide
          have hne : ("Inserted ".toList.drop (c :: pre2).length).head? ≠ some 'I' :=
            hhd _ hk1 hk9
          rw [show ("Inserted 10000 vectors in 1.23 seconds".toList ++ post) =
              'I' :: ("nserted 10000 vectors in 1.23 seconds".toList ++ post) from rfl] at hs2
          cases hdrop : "Inserted ".toList.drop (c :: pre2).length with
          | nil =>
            have hlen : ("Inserted ".toList.drop (c :: pre2).length).length = 0 := by
              rw [hdrop]; rfl
            rw [List.length_drop] at hlen
            have h9 : "Inserted ".toList.length = 9 := rfl
            rw [h9] at hlen
            omega
          | cons a as =>
            rw [hdrop] at hs2 hne
            exact hne (by rw [stripLit_cons_head hs2]; rfl)
    rw [searchInsert_cons_none hm, ← List.append_assoc]
    exact ih post h2

/-! ## Scanning lemmas for the query pattern -/

theorem stripLit_append_self : ∀ l r : List Char, stripLit l (l ++ r) = some r := by
  intro l
  induction l with
  | nil => intro r; rfl
  | cons a as ih => intro r; simp [stripLit, ih]

theorem searchQueriesFuel_nil (n : ℕ) : searchQueriesFuel n [] = [] := by
  cases n <;> rfl

theorem stripLit_length : ∀ l cs r : List Char, stripLit l cs = some r →
    cs.length = l.length + r.length := by
  intro l
  induction l with
  | nil =>
    intro cs r h
    simp only [stripLit] at h
    injection h with h
    simp [h]
  | cons a as ih =>
    intro cs r h
    cases cs with
    | nil => exact absurd h (by simp [stripLit])
    | cons b bs =>
      have hab : a = b := stripLit_cons_head h
      rw [show stripLit (a :: as) (b :: bs) = stripLit as bs by simp [stripLit, hab]] at h
      have := ih bs r h
      simp only [List.length_cons, this]
      omega

theorem takeWhile1_length {p : Char → Bool} {cs t r : List Char}
    (h : takeWhile1 p cs = some (t, r)) : cs.length = t.length + r.length ∧ t ≠ [] := by
  simp only [takeWhile1] at h
  split at h
  · exact absurd h (by simp)
  · rename_i hne
    simp only [Option.some.injEq, Prod.mk.injEq] at h
    obtain ⟨h1, h2⟩ := h
    subst h1
    subst h2
    have hle : (cs.takeWhile p).length ≤ cs.length :=
      (List.takeWhile_sublist p : List.Sublist (cs.takeWhile p) cs).length_le
    refine ⟨by rw [List.length_drop]; omega, ?_⟩
    intro hnil
    rw [hnil] at hne
    exact hne rfl

theorem matchQueryAt_shrink {cs g rest : List Char}
    (h : matchQueryAt cs = some (g, rest)) : rest.length < cs.length := by
  unfold matchQueryAt at h
  split at h
  · exact absurd h (by simp)
  · rename_i r1 h1
    split at h
    · exact absurd h (by simp)
    · rename_i t2 r2 h2
      split at h
      · exact absurd h (by simp)
      · rename_i r3 h3
        split at h
        · exact absurd h (by simp)
        · rename_i g4 r4 h4
          split at h
          · exact absurd h (by simp)
          · rename_i r5 h5
            simp only [Option.some.injEq, Prod.mk.injEq] at h
            obtain ⟨hg, hr⟩ := h
            subst hr
            have l1 := stripLit_length _ _ _ h1
            obtain ⟨l2, t2ne⟩ := takeWhile1_length h2
            have l3 := stripLit_length _ _ _ h3
            obtain ⟨l4, _⟩ := takeWhile1_length h4
            have l5 := stripLit_length _ _ _ h5
            have e1 : ("Query ".toList).length = 6 := rfl
            have e3 : (": ".toList).length = 2 := rfl
            have e5 : ("s".toList).length = 1 := rfl
            rw [e1] at l1
            rw [e3] at l3
            rw [e5] at l5
            have hne : t2.length ≠ 0 := by
              intro h0
              exact t2ne (List.length_eq_zero.mp h0)
            omega

theorem searchQueriesFuel_stable : ∀ k n m : ℕ, ∀ cs : List Char, cs.length ≤ k →
    cs.length ≤ n → cs.length ≤ m →
    searchQueriesFuel n cs = searchQueriesFuel m cs := by
  intro k
  induction k with
  | zero =>
    intro n m cs hk _ _
    rw [List.length_eq_zero.mp (Nat.le_zero.mp hk)]
    rw [searchQueriesFuel_nil, searchQueriesFuel_nil]
  | succ k ih =>
    intro n m cs hk hn hm
    cases cs with
    | nil => rw [searchQueriesFuel_nil, searchQueriesFuel_nil]
    | cons c cs2 =>
      rw [List.length_cons] at hk hn hm
      cases n with
      | zero => omega
      | succ n2 =>
        cases m with
        | zero => omega
        | succ m2 =>
          cases hq : matchQueryAt (c :: cs2) with
          | none =>
            simp only [searchQueriesFuel, hq]
            exact ih n2 m2 cs2 (by omega) (by omega) (by omega)
          | some p =>
            obtain ⟨g, rest⟩ := p
            have hlt := matchQueryAt_shrink hq
            rw [List.length_cons] at hlt
            simp only [searchQueriesFuel, hq]
            rw [ih n2 m2 rest (by omega) (by omega) (by omega)]

theorem searchQueries_cons_some {c : Char} {cs g rest : List Char}
    (h : matchQueryAt (c :: cs) = some (g, rest)) :
    searchQueries (c :: cs) = g :: searchQueries rest := by
  have hlt := matchQueryAt_shrink h
  rw [List.length_cons] at hlt
  unfold searchQueries
  simp only [List.length_cons, searchQueriesFuel, h]
  rw [searchQueriesFuel_stable cs.length cs.length rest.length rest (by omega) (by omega)
    (le_refl _)]

theorem searchQueries_cons_none {c : Char} {cs : List Char}
    (h : matchQueryAt (c :: cs) = none) :
    searchQueries (c :: cs) = searchQueries cs := by
  unfold searchQueries
  simp only [List.length_cons, searchQueriesFuel, h]

theorem takeWhile_all_stop {p : Char → Bool} : ∀ (t : List Char) {c : Char} (r : List Char),
    (∀ a ∈ t, p a = true) → p c = false →
    (t ++ c :: r).takeWhile p = t ∧ (t ++ c :: r).drop t.length = c :: r := by
  intro t
  induction t with
  | nil =>
    intro c r _ hc
    simp [List.takeWhile_cons, hc]
  | cons a t2 ih =>
    intro c r h hc
    have ha : p a = true := h a (by simp)
    obtain ⟨h1, h2⟩ := ih r (fun x hx => h x (by simp [hx])) hc
    refine ⟨?_, ?_⟩
    · simp [List.takeWhile_cons, ha, h1]
    · simp [h2]

theorem takeWhile1_append_stop {p : Char → Bool} {t : List Char} {c : Char} {r : List Char}
    (ht : t ≠ []) (h : ∀ a ∈ t, p a = true) (hc : p c = false) :
    takeWhile1 p (t ++ c :: r) = some (t, c :: r) := by
  obtain ⟨h1, h2⟩ := takeWhile_all_stop t r h hc
  have hemp : t.isEmpty = false := by
    cases t with
    | nil => exact absurd rfl ht
    | cons x xs => rfl
  simp [takeWhile1, h1, hemp, h2]

theorem matchQueryAt_line (idx val rest : List Char)
    (hidx : idx ≠ []) (hdig : ∀ a ∈ idx, a.isDigit = true)
    (hval : val ≠ []) (hdd : ∀ a ∈ val, isDigitDot a = true) :
    matchQueryAt (queryLine idx val rest) = some (val, rest) := by
  simp only [queryLine, matchQueryAt, stripLit_append_self,
    takeWhile1_append_stop hidx hdig (show Char.isDigit ':' = false by decide),
    show ∀ X : List Char, stripLit ": ".toList (':' :: ' ' :: X) = some X from fun _ => rfl,
    takeWhile1_append_stop hval hdd (show isDigitDot 's' = false by decide),
    show ∀ X : List Char, stripLit "s".toList ('s' :: X) = some X from fun _ => rfl]

/-! ## Claim C1: process exit status -/

/-- C1 (amended): the process exit status is 0 whenever at least one
benchmark runner returned `None` (the comparison prints an error line
and returns early — backend failure never produces exit status 1), and
more generally 0 exactly when `compare_metrics` raises no exception;
it is 1 only when `compare_metrics` raises (a `ZeroDivisionError`). -/
theorem c1_exit_status :
    (∀ cm lm : Option Metrics, cm = none ∨ lm = none → mainExit cm lm = 0) ∧
    (∀ cm lm : Option Metrics, (compare_metrics cm lm).isOk = true → mainExit cm lm = 0) ∧
    (∀ cm lm : Option Metrics, (compare_metrics cm lm).isOk = false → mainExit cm lm = 1) := by
  refine ⟨?_, ?_, ?_⟩
  · rintro cm lm (rfl | rfl)
    · cases lm <;> rfl
    · cases cm <;> rfl
  · intro cm lm h
    unfold mainExit
    cases hc : compare_metrics cm lm with
    | ok v => rfl
    | error e => rw [hc] at h; simp [Except.isOk, Except.toBool] at h
  · intro cm lm h
    unfold mainExit
    cases hc : compare_metrics cm lm with
    | ok v => rw [hc] at h; simp [Except.isOk, Except.toBool] at h
    | error e => rfl

/-- Witness for C1 at concrete inputs: both runners failed → exit 0;
both succeeded and the comparison completed → exit 0; both succeeded
but the comparison divided by zero → exit 1. -/
theorem c1_exit_status_witness :
    mainExit none none = 0 ∧
    mainExit (some ⟨some 1, [1]⟩) (some ⟨some 2, [2]⟩) = 0 ∧
    mainExit (some ⟨none, [1]⟩) (some ⟨none, [0]⟩) = 1 :=
  ⟨c1_exit_status.1 none none (Or.inl rfl),
   c1_exit_status.2.1 _ _ (by with_unfolding_all rfl),
   c1_exit_status.2.2 _ _ (by with_unfolding_all rfl)⟩

/-- Counterexample to C1 as stated: in a run where no backend produced
usable metrics (both runners returned `None`) the claim demands exit
status 1, but the script ends normally with exit status 0 — `main` has
no `sys.exit` call and `compare_metrics` merely prints an error line
and returns. -/
theorem c1_exit_status_cex : mainExit none none = 0 ∧ mainExit none none ≠ 1 :=
  ⟨rfl, by decide⟩

/-! ## Claim C10: per-query ZeroDivisionError -/

/-- C10: inputs with non-empty query sequences on both sides for which
the per-query loop raises an unhandled `ZeroDivisionError`.  With
candidate times `[0, 2]` (mean 1) the mean-query block succeeds with
ratio 1 and the crash is the per-query ratio division `0.01 / 0.0`;
with reference times `[0, 2]` the crash is the reciprocal `1/speedup`
taken while formatting the ratio `0.0`.  Both propagate out of
`compare_metrics`. -/
theorem c10_per_query_zero_division :
    perQueryRows 1 ([(1 : ℚ), 1].zip [0, 2]) = .error .zeroDiv ∧
    perQueryRows 1 ([(0 : ℚ), 2].zip [1, 1]) = .error .zeroDiv ∧
    (meanSection [1, 1] [0, 2]).map Prod.fst = .ok (some 1) ∧
    (meanSection [0, 2] [1, 1]).map Prod.fst = .ok (some 1) ∧
    compare_metrics (some ⟨none, [1, 1]⟩) (some ⟨none, [0, 2]⟩) = .error .zeroDiv ∧
    compare_metrics (some ⟨none, [0, 2]⟩) (some ⟨none, [1, 1]⟩) = .error .zeroDiv :=
  ⟨by with_unfolding_all rfl, by with_unfolding_all rfl, by with_unfolding_all rfl,
   by with_unfolding_all rfl, by with_unfolding_all rfl, by with_unfolding_all rfl⟩

/-! ## Claim C9: the two parsers are the same function -/

/-- C9: `parse_chromadb_output` and `parse_lynx_output` have textually
identical bodies and compute the same function. -/
theorem c9_parse_functions_equal :
    ∀ output : String, parse_chromadb_output output = parse_lynx_output output :=
  fun _ => rfl

/-! ## Claim C2: rendering of absent comparison fields -/

/-- C2 (amended): an absent comparison field (missing insertion
duration on either side, or an empty query-duration sequence on either
side) makes the corresponding comparison block render only its section
header and separator — the field is skipped silently, without a crash,
and no "not available" marker is printed. -/
theorem c2_absent_fields_skipped :
    (∀ ct lt : Option ℚ, ct = none ∨ lt = none →
        insertSection ct lt =
          .ok (none, ["\n📊 Insertion Performance (10,000 vectors, 512 dims)", dash60])) ∧
    (∀ cq lq : List ℚ, cq = [] ∨ lq = [] →
        meanSection cq lq = .ok (none, ["\n📊 Query Performance (HNSW, k=5)", dash60])) :=
  ⟨fun ct lt h => insertSection_absent ct lt (h.imp id Or.inl),
   fun cq lq h => meanSection_empty cq lq h⟩

/-- Witness for C2 at concrete inputs: a missing insertion time and an
empty query list each produce exactly the two header lines. -/
theorem c2_absent_fields_skipped_witness :
    insertSection none (some (5 / 2)) =
      .ok (none, ["\n📊 Insertion Performance (10,000 vectors, 512 dims)", dash60]) ∧
    meanSection [] [(1 : ℚ)] =
      .ok (none, ["\n📊 Query Performance (HNSW, k=5)", dash60]) :=
  ⟨c2_absent_fields_skipped.1 none (some (5 / 2)) (Or.inl rfl),
   c2_absent_fields_skipped.2 [] [(1 : ℚ)] (Or.inl rfl)⟩

/-- Counterexample to C2 as stated: metric sets with a missing
insertion time and empty query sequences.  The full rendered report is
listed explicitly; no line contains the marker "not available" — the
absent fields are simply blank (header with nothing under it), where
the claim requires an explicit marker. -/
theorem c2_not_available_cex :
    compare_metrics (some ⟨none, []⟩) (some ⟨some 1, []⟩) =
      .ok ["\n" ++ eq60, "BENCHMARK COMPARISON RESULTS", eq60,
           "\n📊 Insertion Performance (10,000 vectors, 512 dims)", dash60,
           "\n📊 Query Performance (HNSW, k=5)", dash60,
           "\n📊 Individual Query Times (ms)", dash60,
           "Query      ChromaDB     Lynx         Speedup   ", dash60,
           "\n" ++ eq60] ∧
    (compare_metrics (some ⟨none, []⟩) (some ⟨some 1, []⟩)).map
        (fun L => L.all fun s => !containsStr "not available" s) = .ok true :=
  ⟨by with_unfolding_all rfl, by with_unfolding_all rfl⟩

/-! ## Claim C3: mean-query speedup -/

/-- C3 (amended): the mean-query speedup
`mean(reference.query_times) / mean(candidate.query_times)` is computed
only when both sequences are non-empty, and a zero-length sequence on
either side yields an absent result with no division by zero; however
the comparison is not division-safe for all inputs — with both
sequences non-empty it raises `ZeroDivisionError` when the candidate
mean (or, while formatting, the ratio itself) is zero. -/
theorem c3_mean_query_speedup :
    (∀ cq lq : List ℚ, cq = [] ∨ lq = [] →
        meanSection cq lq = .ok (none, ["\n📊 Query Performance (HNSW, k=5)", dash60])) ∧
    (∀ cq lq : List ℚ, cq ≠ [] → lq ≠ [] →
        cq.sum / (cq.length : ℚ) ≠ 0 → lq.sum / (lq.length : ℚ) ≠ 0 →
        (meanSection cq lq).map Prod.fst =
          .ok (some ((cq.sum / (cq.length : ℚ)) / (lq.sum / (lq.length : ℚ))))) := by
  constructor
  · exact fun cq lq h => meanSection_empty cq lq h
  · intro cq lq hc hl hca hla
    obtain ⟨lines, h⟩ := meanSection_ok cq lq hc hl hca hla
    rw [h]
    rfl

/-- Witness for C3 at concrete inputs: an empty side yields the bare
header, and for `[0.01, 0.03]` vs `[0.02]` the computed ratio is the
quotient of the two means, `1`. -/
theorem c3_mean_query_speedup_witness :
    meanSection [] [(1 : ℚ)/50] =
      .ok (none, ["\n📊 Query Performance (HNSW, k=5)", dash60]) ∧
    (meanSection [(1 : ℚ)/100, 3/100] [(1 : ℚ)/50]).map Prod.fst = .ok (some 1) := by
  constructor
  · exact c3_mean_query_speedup.1 [] [(1 : ℚ)/50] (Or.inl rfl)
  · have h := c3_mean_query_speedup.2 [(1 : ℚ)/100, 3/100] [(1 : ℚ)/50]
      (by decide) (by decide) (by norm_num) (by norm_num)
    rw [h]
    norm_num

/-- Counterexample to C3's final clause ("never raises a
division-by-zero error for any input metric sets"): with reference
query times `[1.0]` and candidate query times `[0.0]` — both non-empty
— the mean-query division `1.0 / 0.0` raises `ZeroDivisionError`,
which propagates out of `compare_metrics`. -/
theorem c3_mean_query_speedup_cex :
    compare_metrics (some ⟨none, [1]⟩) (some ⟨none, [0]⟩) = .error .zeroDiv := by
  with_unfolding_all rfl

/-! ## Claim C4: insertion speedup -/

/-- C4 (amended): the insertion speedup equals
`reference.insert_time / candidate.insert_time` and is computed exactly
when both insertion durations are present and *nonzero* (Python
truthiness of the two floats) — not, as claimed, whenever both are
present and the candidate's is positive: a present reference duration
of `0.0` also suppresses the field. -/
theorem c4_insertion_speedup :
    (∀ c l : ℚ, c ≠ 0 → l ≠ 0 →
        (insertSection (some c) (some l)).map Prod.fst = .ok (some (c / l))) ∧
    (∀ ct lt : Option ℚ, ct = none ∨ lt = none ∨ ct = some 0 ∨ lt = some 0 →
        (insertSection ct lt).map Prod.fst = .ok none) := by
  constructor
  · intro c l hc hl
    obtain ⟨lines, h⟩ := insertSection_nonzero c l hc hl
    rw [h]
    rfl
  · intro ct lt h
    rw [insertSection_absent ct lt h]
    rfl

/-- Witness for C4 at concrete inputs: `3.0 / 2.0` is computed, and a
missing candidate duration yields an absent field. -/
theorem c4_insertion_speedup_witness :
    (insertSection (some 3) (some 2)).map Prod.fst = .ok (some (3 / 2)) ∧
    (insertSection (some 3) none).map Prod.fst = .ok none :=
  ⟨c4_insertion_speedup.1 3 2 (by norm_num) (by norm_num),
   c4_insertion_speedup.2 (some 3) none (Or.inr (Or.inl rfl))⟩

/-- Counterexample to C4 as stated: with both durations present and the
candidate's duration `1.0 > 0`, the claim requires the speedup field to
be present (value `0.0 / 1.0`), but a reference duration of `0.0` is
falsy in Python, so the guard skips the block and the field is
absent. -/
theorem c4_insertion_speedup_cex :
    (insertSection (some 0) (some 1)).map Prod.fst = .ok none ∧
    (insertSection (some 0) (some 1)).map Prod.fst ≠ .ok (some (0 / 1)) := by
  constructor
  · with_unfolding_all rfl
  · with_unfolding_all decide

/-! ## Claim C7: insertion-duration extraction -/

/-- C7: for every captured output containing
`"Inserted 10000 vectors in 1.23 seconds"` whose preceding text holds
no earlier occurrence of the insertion pattern (no `"Inserted "` at
all before it, so the sentence is the first match), the extractor
returns exactly `1.23`, whatever follows — in particular any later
matches in `post` are ignored (only the first match is used); and when
the pattern matches zero times the insertion duration is absent
(`none`), not an error. -/
theorem c7_insertion_extraction :
    (∀ pre post : List Char, containsSeq "Inserted ".toList pre = false →
        extractInsert (pre ++ "Inserted 10000 vectors in 1.23 seconds".toList ++ post) =
          .ok (some (123 / 100))) ∧
    (∀ cs : List Char, searchInsert cs = none → extractInsert cs = .ok none) := by
  constructor
  · intro pre post h
    unfold extractInsert
    rw [searchInsert_pre_append pre post h]
    with_unfolding_all rfl
  · intro cs h
    unfold extractInsert
    rw [h]

/-- Witness for C7: realistic surrounding output, including a later
second match whose value `9.99` is ignored; and an output with no
match. -/
theorem c7_insertion_extraction_witness :
    extractInsert ("Adding vectors in batches...\n".toList ++
        "Inserted 10000 vectors in 1.23 seconds".toList ++
        "\nInserted 10000 vectors in 9.99 seconds\n".toList) = .ok (some (123 / 100)) ∧
    extractInsert "no insertion line here".toList = .ok none :=
  ⟨c7_insertion_extraction.1 _ _ (by decide), c7_insertion_extraction.2 _ (by decide)⟩

/-! ## Claim C8: query-duration extraction -/

theorem searchQueries_eq_cons {cs g rest : List Char} (hne : cs ≠ [])
    (h : matchQueryAt cs = some (g, rest)) :
    searchQueries cs = g :: searchQueries rest := by
  cases cs with
  | nil => exact absurd rfl hne
  | cons c cs2 => exact searchQueries_cons_some h

theorem searchQueries_newline (cs : List Char) :
    searchQueries ('\n' :: cs) = searchQueries cs :=
  searchQueries_cons_none rfl

theorem queryLine_ne_nil (idx val rest : List Char) : queryLine idx val rest ≠ [] := by
  simp [queryLine]

/-- C8: query durations are collected in the order their lines appear,
regardless of the printed query index: concretely, the scrambled
indices 42, 7, 100 still yield `[0.01, 0.02, 0.03]` in appearance
order; universally, any three lines carrying durations 0.0100, 0.0200,
0.0300 yield exactly `[0.01, 0.02, 0.03]` whatever (nonempty) numeric
indices are printed on them; and an output with no matching line
yields the empty sequence (not an error). -/
theorem c8_query_extraction :
    extractQueries ("Query 42: 0.0100s, top IDs: vec_9\nQuery 7: 0.0200s, top IDs: vec_3\nQuery 100: 0.0300s, top IDs: vec_5\n".toList) =
      .ok [1 / 100, 1 / 50, 3 / 100] ∧
    (∀ i1 i2 i3 : List Char,
        i1 ≠ [] → i2 ≠ [] → i3 ≠ [] →
        (∀ a ∈ i1, a.isDigit = true) → (∀ a ∈ i2, a.isDigit = true) →
        (∀ a ∈ i3, a.isDigit = true) →
        extractQueries
          (queryLine i1 "0.0100".toList ('\n' ::
            queryLine i2 "0.0200".toList ('\n' ::
              queryLine i3 "0.0300".toList ['\n']))) = .ok [1 / 100, 1 / 50, 3 / 100]) ∧
    (∀ cs : List Char, searchQueries cs = [] → extractQueries cs = .ok []) := by
  refine ⟨by with_unfolding_all rfl, ?_, ?_⟩
  · intro i1 i2 i3 h1 h2 h3 hd1 hd2 hd3
    have m1 := matchQueryAt_line i1 "0.0100".toList
      ('\n' :: queryLine i2 "0.0200".toList ('\n' :: queryLine i3 "0.0300".toList ['\n']))
      h1 hd1 (by decide) (by decide)
    have m2 := matchQueryAt_line i2 "0.0200".toList
      ('\n' :: queryLine i3 "0.0300".toList ['\n']) h2 hd2 (by decide) (by decide)
    have m3 := matchQueryAt_line i3 "0.0300".toList ['\n'] h3 hd3 (by decide) (by decide)
    unfold extractQueries
    rw [searchQueries_eq_cons (queryLine_ne_nil _ _ _) m1, searchQueries_newline,
      searchQueries_eq_cons (queryLine_ne_nil _ _ _) m2, searchQueries_newline,
      searchQueries_eq_cons (queryLine_ne_nil _ _ _) m3, searchQueries_newline]
    with_unfolding_all rfl
  · intro cs h
    unfold extractQueries
    rw [h]
    rfl

/-- Witness for C8: the quantified conjunct applied at the indices 42,
7, 100, and an output with no query lines yielding the empty
sequence. -/
theorem c8_query_extraction_witness :
    extractQueries (queryLine "42".toList "0.0100".toList ('\n' ::
        queryLine "7".toList "0.0200".toList ('\n' ::
          queryLine "100".toList "0.0300".toList ['\n']))) = .ok [1 / 100, 1 / 50, 3 / 100] ∧
    extractQueries "Adding vectors in batches...".toList = .ok [] :=
  ⟨c8_query_extraction.2.1 _ _ _ (by decide) (by decide) (by decide)
      (by decide) (by decide) (by decide),
   c8_query_extraction.2.2 _ (by decide)⟩

/-! ## Claim C5: per-query comparison table -/

/-- C5: for reference and candidate query-duration sequences paired
positionally, the per-query table has exactly
`min (length reference) (length candidate)` rows with entry `i` equal
to `reference[i] / candidate[i]` — no padding, no extrapolation.  The
nonzero hypotheses keep the loop clear of the `ZeroDivisionError`
documented in C10. -/
theorem c5_per_query_table :
    ∀ cq lq : List ℚ, (∀ p ∈ cq.zip lq, p.1 ≠ 0 ∧ p.2 ≠ 0) →
      ∃ rows, perQueryRows 1 (cq.zip lq) = .ok rows ∧
        rows.map Prod.fst = (cq.zip lq).map (fun p => p.1 / p.2) ∧
        rows.length = min cq.length lq.length := by
  intro cq lq h
  obtain ⟨rows, h1, h2, h3⟩ := perQueryRows_ok_of_nonzero (cq.zip lq) 1 h
  exact ⟨rows, h1, h2, by rw [h3, List.length_zip]⟩

/-- Witness for C5 at the spec's own example: reference `[0.01, 0.02]`
against candidate `[0.02, 0.01, 0.05]` gives exactly two rows with
ratios `[0.5, 2.0]`; the third candidate sample is ignored. -/
theorem c5_per_query_table_witness :
    ∃ rows, perQueryRows 1 ([(1 : ℚ)/100, 2/100].zip [(2 : ℚ)/100, 1/100, 5/100]) = .ok rows ∧
      rows.map Prod.fst = [(1 : ℚ)/2, 2] ∧ rows.length = 2 := by
  obtain ⟨rows, h1, h2, h3⟩ :=
    c5_per_query_table [(1 : ℚ)/100, 2/100] [(2 : ℚ)/100, 1/100, 5/100]
      (by with_unfolding_all decide)
  refine ⟨rows, h1, ?_, h3⟩
  rw [h2]
  norm_num

/-! ## Claim C6: truncation of mismatched lengths -/

/-- C6 (amended): mismatched query-sequence lengths are truncated
*silently* — the per-query section renders exactly what it renders for
the two sequences pre-truncated to the common length, so no truncation
note (nor any other trace of the discarded tail) appears in the report,
whether or not the lengths differ. -/
theorem c6_truncation_silent :
    ∀ cq lq : List ℚ,
      perQuerySection cq lq =
        perQuerySection (cq.take (min cq.length lq.length))
          (lq.take (min cq.length lq.length)) := by
  intro cq lq
  unfold perQuerySection
  rw [zip_take_min]

/-- Counterexample to C6 as stated: the spec's own example input,
reference `[0.01, 0.02]` vs candidate `[0.02, 0.01, 0.05]`, has
differing lengths 2 ≠ 3, so the claim requires a truncation note; the
full rendered report is listed explicitly and no line mentions
truncation (no line contains "runcat", covering "truncated" and
"Truncated"). -/
theorem c6_truncation_silent_cex :
    compare_metrics (some ⟨none, [1/100, 2/100]⟩) (some ⟨none, [2/100, 1/100, 5/100]⟩) =
      .ok ["\n" ++ eq60, "BENCHMARK COMPARISON RESULTS", eq60,
           "\n📊 Insertion Performance (10,000 vectors, 512 dims)", dash60,
           "\n📊 Query Performance (HNSW, k=5)", dash60,
           "ChromaDB avg:    15.00ms", "Lynx avg:        26.67ms",
           "\n⚠️  ChromaDB queries are 1.78x faster",
           "\n📊 Individual Query Times (ms)", dash60,
           "Query      ChromaDB     Lynx         Speedup   ", dash60,
           "Query 1       10.00 ms     20.00 ms    1/2.00x",
           "Query 2       20.00 ms     10.00 ms      2.00x",
           "\n" ++ eq60] ∧
    (compare_metrics (some ⟨none, [1/100, 2/100]⟩) (some ⟨none, [2/100, 1/100, 5/100]⟩)).map
        (fun L => L.all fun s => !containsStr "runcat" s) = .ok true :=
  ⟨by with_unfolding_all rfl, by with_unfolding_all rfl⟩

end LynxBench
